import Mathlib

/-!
Verification of the fault-injection decorator in
`pkg/client/testingclient/error.go` (package `testingclient`).

The Go file defines an `ErrorInjector` wrapping a `client.Client` delegate:
a rule table `map[resourceActionKey]error`, an eight-probe wildcard matcher
`getStubbedError`, the registration entry point `InjectError`, pass-through
operations `Get`/`Create`/`Delete`/`Update`/`Patch`, and panicking stubs for
`List`/`DeleteAllOf`/`Status`.

Embedding conventions:
  * `Action` is a string type, exactly as in Go (`type Action string`).
  * Go `error` values are modelled by `Option Err` with `none` standing for
    the nil error and `some e` for a non-nil error value; injected errors are
    opaque to the decorator, so `Err` is just `String`.
  * The Go map is modelled by a most-recent-binding-first association list;
    `tableGet` is the map read `err, ok := m[k]` and `tableSet` the map write
    `m[k] = err` (prepending a binding shadows any older binding for the same
    key, which is observationally the map overwrite).
  * A `client.Object` is modelled by `KObject`: `ref` is the allocation
    (pointer) identity of the object — Go compares interface values holding
    pointers by pointer identity, which is how `kind != AnyKind` is decided —
    `gvk` is what the scheme resolves the object's type to (`none` when the
    type is unknown to the scheme), and `key` is the object's
    namespace/name metadata (`client.ObjectKeyFromObject`).
  * Go panics are modelled by the `Outcome.panics` constructor.
  * The wrapped delegate client is modelled by a function
    `d : DelegateCall → Option Err` giving the delegate's returned error for
    each call; each operation returns, besides the call's returned error, the
    list of calls it made on the delegate and the rule table after the call,
    so that delegate invocation and table mutation are observable.
-/

namespace testingclient

/-- Go `error` values injected through the table are opaque to the decorator. -/
abbrev Err := String

/-- `schema.GroupVersionKind`. -/
structure GroupVersionKind where
  group : String
  version : String
  kind : String
deriving DecidableEq, Repr

/-- `client.ObjectKey` (`types.NamespacedName`): a (namespace, name) pair. -/
structure ObjectKey where
  nspace : String
  name : String
deriving DecidableEq, Repr

/-- `type Action string`. -/
abbrev Action := String

def GetAction : Action := "get"

def CreateAction : Action := "create"

def DeleteAction : Action := "delete"

def UpdateAction : Action := "update"

def PatchAction : Action := "patch"

def AnyAction : Action := "*"

/-- `type resourceActionKey struct { action; kind; objectKey }`. -/
structure resourceActionKey where
  action : Action
  kind : GroupVersionKind
  objectKey : ObjectKey
deriving DecidableEq, Repr

/-- A `client.Object` instance: allocation identity, scheme resolution of its
type, and its namespace/name metadata. -/
structure KObject where
  ref : Nat
  gvk : Option GroupVersionKind
  key : ObjectKey
deriving DecidableEq, Repr

/-- `AnyKind = &unstructured.Unstructured{}`: a distinguished allocation (we
give it `ref = 0`) of an empty object; its empty apiVersion/kind resolve to no
scheme type and its metadata key is empty. -/
def AnyKind : KObject := ⟨0, none, ⟨"", ""⟩⟩

/-- `AnyObject = client.ObjectKey{}`: the zero object key. -/
def AnyObject : ObjectKey := ⟨"", ""⟩

/-- `anyKindGVK = schema.GroupVersionKind{Kind: "*"}`. -/
def anyKindGVK : GroupVersionKind := ⟨"", "", "*"⟩

/-- Value (deep) equality of two objects' content, ignoring allocation
identity: same resolvable type and same metadata key. An empty unstructured
object is value-equal to `AnyKind`. -/
def KObject.valueEq (a b : KObject) : Bool :=
  a.gvk == b.gvk && a.key == b.key

/-- `client.ObjectKeyFromObject(obj)`: namespace/name from the object. -/
def ObjectKeyFromObject (o : KObject) : ObjectKey := o.key

/-- An opaque per-call option list (`client.CreateOption` etc.), forwarded
verbatim. Named so that operation signatures inside the `ErrorInjector`
namespace do not resolve `List` to the `ErrorInjector.List` operation. -/
abbrev GoOpts := List String

/-- The rule table `map[resourceActionKey]error`, most recent binding first. -/
abbrev ErrTable := List (resourceActionKey × Option Err)

/-- The map read `err, ok := m[k]`: `none` when `ok` is false, `some err`
(where `err` itself may be the nil error `none`) when `ok` is true. -/
def tableGet (t : ErrTable) (k : resourceActionKey) : Option (Option Err) :=
  match t with
  | [] => none
  | (k2, e) :: rest => if k2 == k then some e else tableGet rest k

/-- The map write `m[k] = e`: the new binding shadows any older one. -/
def tableSet (t : ErrTable) (k : resourceActionKey) (e : Option Err) : ErrTable :=
  (k, e) :: t

/-- Result of a Go computation that may panic. -/
inductive Outcome (α : Type) where
  | ok : α → Outcome α
  | panics : String → Outcome α
deriving DecidableEq, Repr

/-- Modelled from the spec: the helper `mustGVKForObject` is code of this
repository that is not under `src/` (only its caller `error.go` is). The spec
says resolution of an object instance to its type identifier "must fail
loudly (not silently default) if the object's type is unknown to the
registry". We model it as returning the scheme's resolution when it exists
and panicking otherwise. -/
def mustGVKForObject (o : KObject) : Outcome GroupVersionKind :=
  match o.gvk with
  | some g => .ok g
  | none => .panics "unknown object type"

/-- `type ErrorInjector struct { delegate client.Client; errorsToReturn map }`.
The delegate's observable behaviour is passed to each operation as a function
`d : DelegateCall → Option Err`, so the structure carries the table. -/
structure ErrorInjector where
  errorsToReturn : ErrTable
deriving DecidableEq, Repr

/-- `NewErrorInjector`: starts with an empty rule table. -/
def NewErrorInjector : ErrorInjector := ⟨[]⟩

/-- A call made on the wrapped delegate client, with the arguments it was
passed (the opaque option lists and patch body are carried verbatim). -/
inductive DelegateCall where
  | get (key : ObjectKey) (obj : KObject)
  | create (obj : KObject) (opts : GoOpts)
  | delete (obj : KObject) (opts : GoOpts)
  | update (obj : KObject) (opts : GoOpts)
  | patch (obj : KObject) (p : String) (opts : GoOpts)
deriving DecidableEq, Repr

/-- What an intercepted operation produces: the returned error, the calls
made on the delegate during the operation, and the rule table afterwards. -/
structure OpResult where
  ret : Option Err
  calls : List DelegateCall
  table : ErrTable
deriving DecidableEq, Repr

/-- The eight candidate keys of `getStubbedError`, in the order of the Go
slice literal: exact first, then one wildcard (identity, kind, type), then
two wildcards, then all-wildcard. -/
def candidateKeys (action : Action) (gvk : GroupVersionKind) (objectKey : ObjectKey) :
    List resourceActionKey :=
  [⟨action, gvk, objectKey⟩,
   ⟨action, gvk, AnyObject⟩,
   ⟨AnyAction, gvk, objectKey⟩,
   ⟨action, anyKindGVK, objectKey⟩,
   ⟨AnyAction, gvk, AnyObject⟩,
   ⟨action, anyKindGVK, AnyObject⟩,
   ⟨AnyAction, anyKindGVK, objectKey⟩,
   ⟨AnyAction, anyKindGVK, AnyObject⟩]

/-- The loop body of `getStubbedError`: probe the candidates in order; the
first key present in the table returns its stored error (which may be the nil
error); if none is present the result is the nil error. -/
def lookupFirst (t : ErrTable) : List resourceActionKey → Option Err
  | [] => none
  | k :: ks =>
    match tableGet t k with
    | some e => e
    | none => lookupFirst t ks

/-- `getStubbedError(action, kind, objectKey)`: resolve the object's type
through the scheme, then probe the eight candidate keys in order. -/
def ErrorInjector.getStubbedError (c : ErrorInjector) (action : Action)
    (kind : KObject) (objectKey : ObjectKey) : Outcome (Option Err) :=
  match mustGVKForObject kind with
  | .panics m => .panics m
  | .ok gvk => .ok (lookupFirst c.errorsToReturn (candidateKeys action gvk objectKey))

/-- `Get(ctx, key, obj)`: short-circuit on a non-nil stubbed error, else
delegate with the original arguments (the context is forwarded opaquely and
not modelled). -/
def ErrorInjector.Get (c : ErrorInjector) (d : DelegateCall → Option Err)
    (key : ObjectKey) (obj : KObject) : Outcome OpResult :=
  match c.getStubbedError GetAction obj key with
  | .panics m => .panics m
  | .ok (some e) => .ok ⟨some e, [], c.errorsToReturn⟩
  | .ok none => .ok ⟨d (.get key obj), [.get key obj], c.errorsToReturn⟩

/-- `List(ctx, list, opts...)`: `panic("implement me")`. -/
def ErrorInjector.List (_c : ErrorInjector) (_d : DelegateCall → Option Err)
    (_list : KObject) (_opts : GoOpts) : Outcome OpResult :=
  .panics "implement me"

/-- `Create(ctx, obj, opts...)`. -/
def ErrorInjector.Create (c : ErrorInjector) (d : DelegateCall → Option Err)
    (obj : KObject) (opts : GoOpts) : Outcome OpResult :=
  match c.getStubbedError CreateAction obj (ObjectKeyFromObject obj) with
  | .panics m => .panics m
  | .ok (some e) => .ok ⟨some e, [], c.errorsToReturn⟩
  | .ok none => .ok ⟨d (.create obj opts), [.create obj opts], c.errorsToReturn⟩

/-- `Delete(ctx, obj, opts...)`. -/
def ErrorInjector.Delete (c : ErrorInjector) (d : DelegateCall → Option Err)
    (obj : KObject) (opts : GoOpts) : Outcome OpResult :=
  match c.getStubbedError DeleteAction obj (ObjectKeyFromObject obj) with
  | .panics m => .panics m
  | .ok (some e) => .ok ⟨some e, [], c.errorsToReturn⟩
  | .ok none => .ok ⟨d (.delete obj opts), [.delete obj opts], c.errorsToReturn⟩

/-- `Update(ctx, obj, opts...)`. -/
def ErrorInjector.Update (c : ErrorInjector) (d : DelegateCall → Option Err)
    (obj : KObject) (opts : GoOpts) : Outcome OpResult :=
  match c.getStubbedError UpdateAction obj (ObjectKeyFromObject obj) with
  | .panics m => .panics m
  | .ok (some e) => .ok ⟨some e, [], c.errorsToReturn⟩
  | .ok none => .ok ⟨d (.update obj opts), [.update obj opts], c.errorsToReturn⟩

/-- `Patch(ctx, obj, patch, opts...)`. -/
def ErrorInjector.Patch (c : ErrorInjector) (d : DelegateCall → Option Err)
    (obj : KObject) (p : String) (opts : GoOpts) : Outcome OpResult :=
  match c.getStubbedError PatchAction obj (ObjectKeyFromObject obj) with
  | .panics m => .panics m
  | .ok (some e) => .ok ⟨some e, [], c.errorsToReturn⟩
  | .ok none => .ok ⟨d (.patch obj p opts), [.patch obj p opts], c.errorsToReturn⟩

/-- `DeleteAllOf(ctx, obj, opts...)`: `panic("implement me")`. -/
def ErrorInjector.DeleteAllOf (_c : ErrorInjector) (_d : DelegateCall → Option Err)
    (_obj : KObject) (_opts : GoOpts) : Outcome OpResult :=
  .panics "implement me"

/-- `Status()`: `panic("implement me")` — never produces a status writer. -/
def ErrorInjector.Status (_c : ErrorInjector) : Outcome Unit :=
  .panics "implement me"

/-- `Action.IsValid()`: the switch over the six enumerants. -/
def Action.IsValid (a : Action) : Bool :=
  a == GetAction || a == CreateAction || a == DeleteAction ||
  a == UpdateAction || a == PatchAction || a == AnyAction

/-- `InjectError(action, kind, objectKey, injectedError)`: `gvk` starts as the
wildcard and is resolved through the scheme when `kind != AnyKind` (Go
interface comparison on the sentinel pointer, i.e. same allocation); the rule
is stored only when the action is valid. -/
def ErrorInjector.InjectError (c : ErrorInjector) (action : Action) (kind : KObject)
    (objectKey : ObjectKey) (injectedError : Option Err) : Outcome ErrorInjector :=
  let gvkOut : Outcome GroupVersionKind :=
    if kind == AnyKind then .ok anyKindGVK else mustGVKForObject kind
  match gvkOut with
  | .panics m => .panics m
  | .ok gvk =>
    if Action.IsValid action then
      .ok ⟨tableSet c.errorsToReturn ⟨action, gvk, objectKey⟩ injectedError⟩
    else
      .ok c

/-! ### Helper lemmas about the table and the probe loop -/

theorem tableGet_cons_self (k : resourceActionKey) (e : Option Err) (t : ErrTable) :
    tableGet ((k, e) :: t) k = some e := by
  simp [tableGet]

theorem tableGet_cons_ne (k k2 : resourceActionKey) (e : Option Err) (t : ErrTable)
    (h : k2 ≠ k) : tableGet ((k, e) :: t) k2 = tableGet t k2 := by
  simp [tableGet, beq_iff_eq, Ne.symm h]

theorem lookupFirst_cons_hit (t : ErrTable) (k : resourceActionKey)
    (ks : List resourceActionKey) (e : Option Err) (h : tableGet t k = some e) :
    lookupFirst t (k :: ks) = e := by
  simp [lookupFirst, h]

theorem lookupFirst_cons_miss (t : ErrTable) (k : resourceActionKey)
    (ks : List resourceActionKey) (h : tableGet t k = none) :
    lookupFirst t (k :: ks) = lookupFirst t ks := by
  simp [lookupFirst, h]

theorem lookupFirst_append_none (t : ErrTable) (pre ks : List resourceActionKey)
    (h : ∀ k ∈ pre, tableGet t k = none) :
    lookupFirst t (pre ++ ks) = lookupFirst t ks := by
  induction pre with
  | nil => rfl
  | cons k rest ih =>
    rw [List.cons_append, lookupFirst_cons_miss t k _ (h k (List.mem_cons_self k rest))]
    exact ih fun k2 hk2 => h k2 (List.mem_cons_of_mem k hk2)

theorem lookupFirst_all_none (t : ErrTable) (ks : List resourceActionKey)
    (h : ∀ k ∈ ks, tableGet t k = none) : lookupFirst t ks = none := by
  simpa using lookupFirst_append_none t ks [] h

theorem getStubbedError_ok (t : ErrTable) (a : Action) (obj : KObject)
    (g : GroupVersionKind) (i : ObjectKey) (hg : obj.gvk = some g) :
    ErrorInjector.getStubbedError ⟨t⟩ a obj i =
      .ok (lookupFirst t (candidateKeys a g i)) := by
  simp [ErrorInjector.getStubbedError, mustGVKForObject, hg]

theorem Get_of_stub_some (t : ErrTable) (d : DelegateCall → Option Err) (key : ObjectKey)
    (obj : KObject) (g : GroupVersionKind) (e : Err) (hg : obj.gvk = some g)
    (h : lookupFirst t (candidateKeys GetAction g key) = some e) :
    ErrorInjector.Get ⟨t⟩ d key obj = .ok ⟨some e, [], t⟩ := by
  simp [ErrorInjector.Get, getStubbedError_ok t GetAction obj g key hg, h]

theorem Get_of_stub_none (t : ErrTable) (d : DelegateCall → Option Err) (key : ObjectKey)
    (obj : KObject) (g : GroupVersionKind) (hg : obj.gvk = some g)
    (h : lookupFirst t (candidateKeys GetAction g key) = none) :
    ErrorInjector.Get ⟨t⟩ d key obj = .ok ⟨d (.get key obj), [.get key obj], t⟩ := by
  simp [ErrorInjector.Get, getStubbedError_ok t GetAction obj g key hg, h]

theorem Create_of_stub_some (t : ErrTable) (d : DelegateCall → Option Err)
    (obj : KObject) (g : GroupVersionKind) (e : Err) (opts : GoOpts)
    (hg : obj.gvk = some g)
    (h : lookupFirst t (candidateKeys CreateAction g obj.key) = some e) :
    ErrorInjector.Create ⟨t⟩ d obj opts = .ok ⟨some e, [], t⟩ := by
  simp [ErrorInjector.Create, ObjectKeyFromObject,
    getStubbedError_ok t CreateAction obj g obj.key hg, h]

theorem Create_of_stub_none (t : ErrTable) (d : DelegateCall → Option Err)
    (obj : KObject) (g : GroupVersionKind) (opts : GoOpts)
    (hg : obj.gvk = some g)
    (h : lookupFirst t (candidateKeys CreateAction g obj.key) = none) :
    ErrorInjector.Create ⟨t⟩ d obj opts =
      .ok ⟨d (.create obj opts), [.create obj opts], t⟩ := by
  simp [ErrorInjector.Create, ObjectKeyFromObject,
    getStubbedError_ok t CreateAction obj g obj.key hg, h]

theorem Delete_of_stub_some (t : ErrTable) (d : DelegateCall → Option Err)
    (obj : KObject) (g : GroupVersionKind) (e : Err) (opts : GoOpts)
    (hg : obj.gvk = some g)
    (h : lookupFirst t (candidateKeys DeleteAction g obj.key) = some e) :
    ErrorInjector.Delete ⟨t⟩ d obj opts = .ok ⟨some e, [], t⟩ := by
  simp [ErrorInjector.Delete, ObjectKeyFromObject,
    getStubbedError_ok t DeleteAction obj g obj.key hg, h]

theorem Delete_of_stub_none (t : ErrTable) (d : DelegateCall → Option Err)
    (obj : KObject) (g : GroupVersionKind) (opts : GoOpts)
    (hg : obj.gvk = some g)
    (h : lookupFirst t (candidateKeys DeleteAction g obj.key) = none) :
    ErrorInjector.Delete ⟨t⟩ d obj opts =
      .ok ⟨d (.delete obj opts), [.delete obj opts], t⟩ := by
  simp [ErrorInjector.Delete, ObjectKeyFromObject,
    getStubbedError_ok t DeleteAction obj g obj.key hg, h]

theorem Update_of_stub_some (t : ErrTable) (d : DelegateCall → Option Err)
    (obj : KObject) (g : GroupVersionKind) (e : Err) (opts : GoOpts)
    (hg : obj.gvk = some g)
    (h : lookupFirst t (candidateKeys UpdateAction g obj.key) = some e) :
    ErrorInjector.Update ⟨t⟩ d obj opts = .ok ⟨some e, [], t⟩ := by
  simp [ErrorInjector.Update, ObjectKeyFromObject,
    getStubbedError_ok t UpdateAction obj g obj.key hg, h]

theorem Update_of_stub_none (t : ErrTable) (d : DelegateCall → Option Err)
    (obj : KObject) (g : GroupVersionKind) (opts : GoOpts)
    (hg : obj.gvk = some g)
    (h : lookupFirst t (candidateKeys UpdateAction g obj.key) = none) :
    ErrorInjector.Update ⟨t⟩ d obj opts =
      .ok ⟨d (.update obj opts), [.update obj opts], t⟩ := by
  simp [ErrorInjector.Update, ObjectKeyFromObject,
    getStubbedError_ok t UpdateAction obj g obj.key hg, h]

theorem Patch_of_stub_some (t : ErrTable) (d : DelegateCall → Option Err)
    (obj : KObject) (g : GroupVersionKind) (e : Err) (p : String) (opts : GoOpts)
    (hg : obj.gvk = some g)
    (h : lookupFirst t (candidateKeys PatchAction g obj.key) = some e) :
    ErrorInjector.Patch ⟨t⟩ d obj p opts = .ok ⟨some e, [], t⟩ := by
  simp [ErrorInjector.Patch, ObjectKeyFromObject,
    getStubbedError_ok t PatchAction obj g obj.key hg, h]

theorem Patch_of_stub_none (t : ErrTable) (d : DelegateCall → Option Err)
    (obj : KObject) (g : GroupVersionKind) (p : String) (opts : GoOpts)
    (hg : obj.gvk = some g)
    (h : lookupFirst t (candidateKeys PatchAction g obj.key) = none) :
    ErrorInjector.Patch ⟨t⟩ d obj p opts =
      .ok ⟨d (.patch obj p opts), [.patch obj p opts], t⟩ := by
  simp [ErrorInjector.Patch, ObjectKeyFromObject,
    getStubbedError_ok t PatchAction obj g obj.key hg, h]

theorem lookupFirst_exact_hit (t : ErrTable) (a : Action) (g : GroupVersionKind)
    (i : ObjectKey) (e : Option Err) (h : tableGet t ⟨a, g, i⟩ = some e) :
    lookupFirst t (candidateKeys a g i) = e := by
  simp only [candidateKeys]
  exact lookupFirst_cons_hit t _ _ e h

theorem lookupFirst_identity_wildcard_hit (t : ErrTable) (a : Action)
    (g : GroupVersionKind) (i : ObjectKey) (e : Option Err)
    (h1 : tableGet t ⟨a, g, i⟩ = none) (h2 : tableGet t ⟨a, g, AnyObject⟩ = some e) :
    lookupFirst t (candidateKeys a g i) = e := by
  simp only [candidateKeys]
  rw [lookupFirst_cons_miss t _ _ h1]
  exact lookupFirst_cons_hit t _ _ e h2

theorem InjectError_valid_eq (c : ErrorInjector) (a : Action) (kind : KObject)
    (g : GroupVersionKind) (i : ObjectKey) (e : Option Err)
    (hval : Action.IsValid a = true)
    (hg : (kind == AnyKind) = true ∧ g = anyKindGVK ∨
          (kind == AnyKind) = false ∧ kind.gvk = some g) :
    ErrorInjector.InjectError c a kind i e =
      .ok ⟨tableSet c.errorsToReturn ⟨a, g, i⟩ e⟩ := by
  rcases hg with ⟨hk, hgg⟩ | ⟨hk, hgvk⟩
  · subst hgg
    simp [ErrorInjector.InjectError, hk, hval]
  · simp [ErrorInjector.InjectError, hk, mustGVKForObject, hgvk, hval]

/-! ### Concrete sample values used by the witnesses -/

/-- The `apps/v1 Deployment` type identifier, as in the repository's tests. -/
def depGVK : GroupVersionKind := ⟨"apps", "v1", "Deployment"⟩

/-- Identity of the `test-deployment-3` object of the repository's tests. -/
def dep3Key : ObjectKey := ⟨"ns1", "test-deployment-3"⟩

/-- A deployment object named `test-deployment-3` in namespace `ns1`. -/
def dep3 : KObject := ⟨1, some depGVK, dep3Key⟩

/-- An empty object (no resolvable type, empty metadata) allocated freshly,
so it is value-equal to the `AnyKind` sentinel but a distinct allocation. -/
def freshEmptyObj : KObject := ⟨1, none, ⟨"", ""⟩⟩

/-- A table holding one exact rule for creating `dep3`. -/
def c2table : ErrTable := [(⟨CreateAction, depGVK, dep3Key⟩, some "test error")]

/-- A table with a nil error at the exact key and a non-nil error at the
identity-wildcard key for the same action and type. -/
def c10table : ErrTable :=
  [(⟨CreateAction, depGVK, dep3Key⟩, none),
   (⟨CreateAction, depGVK, AnyObject⟩, some "less specific")]

/-- The exact registration key used by the last-write-wins witness. -/
def c5key : resourceActionKey := ⟨CreateAction, depGVK, dep3Key⟩

/-- The injector obtained by registering `c5key ↦ "first"`. -/
def c5mid : ErrorInjector := ⟨[(c5key, some "first")]⟩

/-- The injector obtained by then re-registering `c5key ↦ "second"`. -/
def c5after : ErrorInjector := ⟨[(c5key, some "second"), (c5key, some "first")]⟩

/-! ### The claims -/

/-- C2: for every registered exact rule (K, T, I) ↦ err with K a concrete
action, invoking the operation K on an object of type T with identity I
returns exactly err, the delegate receives no call, and the rule table after
the call is the table before it (the caller-supplied object, being untouched
by the decorator and never handed to the delegate on this path, is likewise
unmutated). -/
theorem c2_exact_rule_short_circuits (t : ErrTable) (d : DelegateCall → Option Err)
    (obj : KObject) (g : GroupVersionKind) (key : ObjectKey) (e : Err)
    (p : String) (opts : GoOpts) (hg : obj.gvk = some g) :
    (tableGet t ⟨GetAction, g, key⟩ = some (some e) →
      ErrorInjector.Get ⟨t⟩ d key obj = .ok ⟨some e, [], t⟩)
    ∧ (tableGet t ⟨CreateAction, g, obj.key⟩ = some (some e) →
      ErrorInjector.Create ⟨t⟩ d obj opts = .ok ⟨some e, [], t⟩)
    ∧ (tableGet t ⟨DeleteAction, g, obj.key⟩ = some (some e) →
      ErrorInjector.Delete ⟨t⟩ d obj opts = .ok ⟨some e, [], t⟩)
    ∧ (tableGet t ⟨UpdateAction, g, obj.key⟩ = some (some e) →
      ErrorInjector.Update ⟨t⟩ d obj opts = .ok ⟨some e, [], t⟩)
    ∧ (tableGet t ⟨PatchAction, g, obj.key⟩ = some (some e) →
      ErrorInjector.Patch ⟨t⟩ d obj p opts = .ok ⟨some e, [], t⟩) := by
  refine ⟨fun h => ?_, fun h => ?_, fun h => ?_, fun h => ?_, fun h => ?_⟩
  · exact Get_of_stub_some t d key obj g e hg (lookupFirst_exact_hit t _ g key _ h)
  · exact Create_of_stub_some t d obj g e opts hg (lookupFirst_exact_hit t _ g obj.key _ h)
  · exact Delete_of_stub_some t d obj g e opts hg (lookupFirst_exact_hit t _ g obj.key _ h)
  · exact Update_of_stub_some t d obj g e opts hg (lookupFirst_exact_hit t _ g obj.key _ h)
  · exact Patch_of_stub_some t d obj g e p opts hg (lookupFirst_exact_hit t _ g obj.key _ h)

theorem c2_witness :
    ErrorInjector.Create ⟨c2table⟩ (fun _ => none) dep3 [] =
      .ok ⟨some "test error", [], c2table⟩ :=
  (c2_exact_rule_short_circuits c2table (fun _ => none) dep3 depGVK dep3Key
    "test error" "" [] rfl).2.1 (by decide)

/-- C3: on a call no rule of the table matches (no candidate key is present),
each operation invokes the delegate exactly once with the original arguments
and options and returns the delegate's error unchanged with the table intact;
in particular the injector with the empty rule table behaves exactly as the
delegate on Get, Create, Update, Delete and Patch. -/
theorem c3_no_match_delegates (t : ErrTable) (d : DelegateCall → Option Err)
    (obj : KObject) (g : GroupVersionKind) (key : ObjectKey) (p : String)
    (opts : GoOpts) (hg : obj.gvk = some g) :
    ((∀ k ∈ candidateKeys GetAction g key, tableGet t k = none) →
      ErrorInjector.Get ⟨t⟩ d key obj = .ok ⟨d (.get key obj), [.get key obj], t⟩)
    ∧ ((∀ k ∈ candidateKeys CreateAction g obj.key, tableGet t k = none) →
      ErrorInjector.Create ⟨t⟩ d obj opts =
        .ok ⟨d (.create obj opts), [.create obj opts], t⟩)
    ∧ ((∀ k ∈ candidateKeys DeleteAction g obj.key, tableGet t k = none) →
      ErrorInjector.Delete ⟨t⟩ d obj opts =
        .ok ⟨d (.delete obj opts), [.delete obj opts], t⟩)
    ∧ ((∀ k ∈ candidateKeys UpdateAction g obj.key, tableGet t k = none) →
      ErrorInjector.Update ⟨t⟩ d obj opts =
        .ok ⟨d (.update obj opts), [.update obj opts], t⟩)
    ∧ ((∀ k ∈ candidateKeys PatchAction g obj.key, tableGet t k = none) →
      ErrorInjector.Patch ⟨t⟩ d obj p opts =
        .ok ⟨d (.patch obj p opts), [.patch obj p opts], t⟩)
    ∧ ErrorInjector.Get ⟨[]⟩ d key obj = .ok ⟨d (.get key obj), [.get key obj], []⟩
    ∧ ErrorInjector.Create ⟨[]⟩ d obj opts =
        .ok ⟨d (.create obj opts), [.create obj opts], []⟩
    ∧ ErrorInjector.Delete ⟨[]⟩ d obj opts =
        .ok ⟨d (.delete obj opts), [.delete obj opts], []⟩
    ∧ ErrorInjector.Update ⟨[]⟩ d obj opts =
        .ok ⟨d (.update obj opts), [.update obj opts], []⟩
    ∧ ErrorInjector.Patch ⟨[]⟩ d obj p opts =
        .ok ⟨d (.patch obj p opts), [.patch obj p opts], []⟩ := by
  have hnil : ∀ ks : List resourceActionKey, lookupFirst [] ks = none :=
    fun ks => lookupFirst_all_none [] ks (fun _ _ => rfl)
  refine ⟨fun h => ?_, fun h => ?_, fun h => ?_, fun h => ?_, fun h => ?_,
          ?_, ?_, ?_, ?_, ?_⟩
  · exact Get_of_stub_none t d key obj g hg (lookupFirst_all_none t _ h)
  · exact Create_of_stub_none t d obj g opts hg (lookupFirst_all_none t _ h)
  · exact Delete_of_stub_none t d obj g opts hg (lookupFirst_all_none t _ h)
  · exact Update_of_stub_none t d obj g opts hg (lookupFirst_all_none t _ h)
  · exact Patch_of_stub_none t d obj g p opts hg (lookupFirst_all_none t _ h)
  · exact Get_of_stub_none [] d key obj g hg (hnil _)
  · exact Create_of_stub_none [] d obj g opts hg (hnil _)
  · exact Delete_of_stub_none [] d obj g opts hg (hnil _)
  · exact Update_of_stub_none [] d obj g opts hg (hnil _)
  · exact Patch_of_stub_none [] d obj g p opts hg (hnil _)

theorem c3_witness :
    ErrorInjector.Create ⟨[]⟩ (fun _ => some "delegate error") dep3 ["opt1"] =
      .ok ⟨some "delegate error", [.create dep3 ["opt1"]], []⟩ :=
  (c3_no_match_delegates [] (fun _ => some "delegate error") dep3 depGVK dep3Key
    "" ["opt1"] rfl).2.2.2.2.2.2.1

/-- C6: List, DeleteAllOf and Status always panic with "implement me", for
every input and every table, and never produce a result. -/
theorem c6_unimplemented_ops_panic (c : ErrorInjector) (d : DelegateCall → Option Err)
    (list obj : KObject) (opts : GoOpts) :
    ErrorInjector.List c d list opts = .panics "implement me"
    ∧ ErrorInjector.DeleteAllOf c d obj opts = .panics "implement me"
    ∧ ErrorInjector.Status c = .panics "implement me"
    ∧ (∀ r : OpResult, ErrorInjector.List c d list opts ≠ .ok r)
    ∧ (∀ r : OpResult, ErrorInjector.DeleteAllOf c d obj opts ≠ .ok r)
    ∧ (∀ u : Unit, ErrorInjector.Status c ≠ .ok u) := by
  refine ⟨rfl, rfl, rfl, ?_, ?_, ?_⟩ <;> intro r h <;>
    simp [ErrorInjector.List, ErrorInjector.DeleteAllOf, ErrorInjector.Status] at h

/-- C7: Action.IsValid holds exactly at the six enumerants "get", "create",
"delete", "update", "patch" and the wildcard "*"; every other string,
including the empty (zero) value, is invalid. -/
theorem c7_isvalid_exactly_six :
    (∀ a : Action, Action.IsValid a = true ↔
      (a = "get" ∨ a = "create" ∨ a = "delete" ∨
       a = "update" ∨ a = "patch" ∨ a = "*"))
    ∧ Action.IsValid "" = false := by
  refine ⟨fun a => ?_, rfl⟩
  simp [Action.IsValid, GetAction, CreateAction, DeleteAction, UpdateAction,
    PatchAction, AnyAction, Bool.or_eq_true, beq_iff_eq, or_assoc]

/-- C10: when the most specific (exact) candidate key stores the nil error,
the matcher returns that nil immediately — masking the non-nil rule stored at
the strictly less specific identity-wildcard key — and the call is forwarded
to the delegate with the original arguments, returning the delegate's
result. -/
theorem c10_nil_rule_masks_and_delegates (t : ErrTable) (d : DelegateCall → Option Err)
    (obj : KObject) (g : GroupVersionKind) (e : Err) (opts : GoOpts)
    (hg : obj.gvk = some g)
    (hnil : tableGet t ⟨CreateAction, g, obj.key⟩ = some none)
    (_hless : tableGet t ⟨CreateAction, g, AnyObject⟩ = some (some e)) :
    ErrorInjector.getStubbedError ⟨t⟩ CreateAction obj obj.key = .ok none
    ∧ ErrorInjector.Create ⟨t⟩ d obj opts =
        .ok ⟨d (.create obj opts), [.create obj opts], t⟩ := by
  have hl : lookupFirst t (candidateKeys CreateAction g obj.key) = none :=
    lookupFirst_exact_hit t CreateAction g obj.key none hnil
  constructor
  · rw [getStubbedError_ok t CreateAction obj g obj.key hg, hl]
  · exact Create_of_stub_none t d obj g opts hg hl

theorem c10_witness :
    ErrorInjector.Create ⟨c10table⟩ (fun _ => none) dep3 [] =
      .ok ⟨none, [.create dep3 []], c10table⟩ :=
  (c10_nil_rule_masks_and_delegates c10table (fun _ => none) dep3 depGVK
    "less specific" [] rfl (by decide) (by decide)).2

/-- C1: for a concrete (non-wildcard) call action, the matcher probes exactly
the eight candidate keys in the fixed order (K,T,I), (K,T,Any), (Any,T,I),
(K,Any,I), (Any,T,Any), (K,Any,Any), (Any,Any,I), (Any,Any,Any); the first
candidate present in the table determines the returned error; if none is
present the matcher reports no match; in particular the exact key beats the
identity-wildcard key, and the identity-wildcard key beats every later
candidate (such as the kind-wildcard key (Any,T,I)) when the exact key is
absent. -/
theorem c1_matcher_probe_order (t : ErrTable) (a : Action) (g : GroupVersionKind)
    (i : ObjectKey) (kobj : KObject) (e : Option Err)
    (_hconc : a ≠ AnyAction) (hg : kobj.gvk = some g) :
    candidateKeys a g i =
      [⟨a, g, i⟩, ⟨a, g, AnyObject⟩, ⟨AnyAction, g, i⟩, ⟨a, anyKindGVK, i⟩,
       ⟨AnyAction, g, AnyObject⟩, ⟨a, anyKindGVK, AnyObject⟩,
       ⟨AnyAction, anyKindGVK, i⟩, ⟨AnyAction, anyKindGVK, AnyObject⟩]
    ∧ ErrorInjector.getStubbedError ⟨t⟩ a kobj i =
        .ok (lookupFirst t (candidateKeys a g i))
    ∧ (∀ pre k post, candidateKeys a g i = pre ++ k :: post →
        (∀ k2 ∈ pre, tableGet t k2 = none) → tableGet t k = some e →
        lookupFirst t (candidateKeys a g i) = e)
    ∧ ((∀ k ∈ candidateKeys a g i, tableGet t k = none) →
        ErrorInjector.getStubbedError ⟨t⟩ a kobj i = .ok none)
    ∧ (tableGet t ⟨a, g, i⟩ = some e → lookupFirst t (candidateKeys a g i) = e)
    ∧ (tableGet t ⟨a, g, i⟩ = none → tableGet t ⟨a, g, AnyObject⟩ = some e →
        lookupFirst t (candidateKeys a g i) = e) := by
  refine ⟨rfl, getStubbedError_ok t a kobj g i hg, ?_, ?_, ?_, ?_⟩
  · intro pre k post heq hpre hk
    rw [heq, lookupFirst_append_none t pre _ hpre]
    exact lookupFirst_cons_hit t k post e hk
  · intro h
    rw [getStubbedError_ok t a kobj g i hg, lookupFirst_all_none t _ h]
  · exact fun h => lookupFirst_exact_hit t a g i e h
  · exact fun h1 h2 => lookupFirst_identity_wildcard_hit t a g i e h1 h2

theorem c1_witness :
    candidateKeys GetAction depGVK dep3Key =
      [⟨GetAction, depGVK, dep3Key⟩, ⟨GetAction, depGVK, AnyObject⟩,
       ⟨AnyAction, depGVK, dep3Key⟩, ⟨GetAction, anyKindGVK, dep3Key⟩,
       ⟨AnyAction, depGVK, AnyObject⟩, ⟨GetAction, anyKindGVK, AnyObject⟩,
       ⟨AnyAction, anyKindGVK, dep3Key⟩, ⟨AnyAction, anyKindGVK, AnyObject⟩] :=
  (c1_matcher_probe_order [] GetAction depGVK dep3Key dep3 none
    (by decide) rfl).1

/-- C4: InjectError with an action failing IsValid never stores a rule: every
completed call returns the injector unchanged, and consequently a later call
is matched against exactly the same table as before the attempted
registration (never short-circuited by it). -/
theorem c4_invalid_action_registration_noop (c : ErrorInjector) (a : Action)
    (kind : KObject) (i : ObjectKey) (e : Option Err)
    (hinv : Action.IsValid a = false) :
    (∀ c2, ErrorInjector.InjectError c a kind i e = .ok c2 → c2 = c)
    ∧ (∀ c2, ErrorInjector.InjectError c a kind i e = .ok c2 →
        ∀ a2 kobj i2, ErrorInjector.getStubbedError c2 a2 kobj i2 =
          ErrorInjector.getStubbedError c a2 kobj i2) := by
  have noop : ∀ c2, ErrorInjector.InjectError c a kind i e = .ok c2 → c2 = c := by
    intro c2 h
    by_cases hk : (kind == AnyKind) = true
    · simp [ErrorInjector.InjectError, hk, hinv] at h
      exact h.symm
    · cases hgvk : kind.gvk with
      | some g =>
        simp [ErrorInjector.InjectError, hk, mustGVKForObject, hgvk, hinv] at h
        exact h.symm
      | none =>
        simp [ErrorInjector.InjectError, hk, mustGVKForObject, hgvk] at h
  exact ⟨noop, fun c2 h a2 kobj i2 => by rw [noop c2 h]⟩

theorem c4_witness :
    Action.IsValid "post" = false ∧ NewErrorInjector = NewErrorInjector :=
  ⟨by decide,
   (c4_invalid_action_registration_noop NewErrorInjector "post" dep3 dep3Key
     (some "boom") (by decide)).1 NewErrorInjector (by decide)⟩

/-- C5: re-registering the same rule key overwrites: after storing e1 and
then e2 at (a, g, i), the table holds e2 at that key, every other key reads
exactly as before either registration, and a subsequent call whose exact
triple is (a, g, i) is answered by e2. -/
theorem c5_last_write_wins (c c1 c2 : ErrorInjector) (a : Action) (kind : KObject)
    (g : GroupVersionKind) (i : ObjectKey) (e1 e2 : Option Err)
    (hval : Action.IsValid a = true)
    (hg : (kind == AnyKind) = true ∧ g = anyKindGVK ∨
          (kind == AnyKind) = false ∧ kind.gvk = some g)
    (h1 : ErrorInjector.InjectError c a kind i e1 = .ok c1)
    (h2 : ErrorInjector.InjectError c1 a kind i e2 = .ok c2) :
    tableGet c2.errorsToReturn ⟨a, g, i⟩ = some e2
    ∧ (∀ k2, k2 ≠ ⟨a, g, i⟩ →
        tableGet c2.errorsToReturn k2 = tableGet c.errorsToReturn k2)
    ∧ (∀ obj2 : KObject, obj2.gvk = some g → obj2.key = i →
        ErrorInjector.getStubbedError c2 a obj2 obj2.key = .ok e2) := by
  rw [InjectError_valid_eq c a kind g i e1 hval hg] at h1
  injection h1 with h1'
  subst h1'
  rw [InjectError_valid_eq _ a kind g i e2 hval hg] at h2
  injection h2 with h2'
  subst h2'
  refine ⟨tableGet_cons_self _ e2 _, fun k2 hne => ?_, fun obj2 hgvk hkey => ?_⟩
  · simp only [tableSet]
    rw [tableGet_cons_ne _ k2 e2 _ hne, tableGet_cons_ne _ k2 e1 _ hne]
  · rw [getStubbedError_ok _ a obj2 g obj2.key hgvk, hkey]
    simp only [tableSet]
    rw [lookupFirst_exact_hit _ a g i e2 (tableGet_cons_self _ e2 _)]

theorem c5_witness :
    tableGet c5after.errorsToReturn c5key = some (some "second")
    ∧ ErrorInjector.getStubbedError c5after CreateAction dep3 dep3.key =
        .ok (some "second") := by
  have h := c5_last_write_wins NewErrorInjector c5mid c5after CreateAction dep3
    depGVK dep3Key (some "first") (some "second") (by decide)
    (Or.inr ⟨by decide, rfl⟩) (by decide) (by decide)
  exact ⟨h.1, h.2.2 dep3 rfl rfl⟩

/-- C8 counterexample: `freshEmptyObj` is value-equal (same content: no
resolvable type, empty metadata) to the `AnyKind` sentinel, yet registering a
rule with it does not store the wildcard resource-type identifier: it is sent
to scheme resolution, which fails loudly, so the call aborts instead of
registering a wildcard rule. -/
theorem c8_counterexample :
    KObject.valueEq freshEmptyObj AnyKind = true
    ∧ ErrorInjector.InjectError NewErrorInjector CreateAction freshEmptyObj
        dep3Key (some "boom") = .panics "unknown object type" := by
  exact ⟨by decide, by decide⟩

/-- C8 amended: the AnyKind sentinel is recognised by allocation (pointer)
identity, not by value: only the sentinel object itself makes InjectError
store the wildcard resource-type identifier; any other object — including one
value-equal to the sentinel — is resolved through the scheme, storing its
resolved type when the scheme knows it and failing loudly otherwise. -/
theorem c8_sentinel_by_identity (c : ErrorInjector) (a : Action) (i : ObjectKey)
    (e : Option Err) (kind : KObject) (g : GroupVersionKind)
    (hval : Action.IsValid a = true) :
    (kind = AnyKind →
      ErrorInjector.InjectError c a kind i e =
        .ok ⟨tableSet c.errorsToReturn ⟨a, anyKindGVK, i⟩ e⟩)
    ∧ (kind ≠ AnyKind → kind.gvk = some g →
      ErrorInjector.InjectError c a kind i e =
        .ok ⟨tableSet c.errorsToReturn ⟨a, g, i⟩ e⟩)
    ∧ (kind ≠ AnyKind → kind.gvk = none →
      ErrorInjector.InjectError c a kind i e = .panics "unknown object type") := by
  refine ⟨fun hk => ?_, fun hk hgvk => ?_, fun hk hgvk => ?_⟩
  · exact InjectError_valid_eq c a kind anyKindGVK i e hval
      (Or.inl ⟨by simp [beq_iff_eq, hk], rfl⟩)
  · exact InjectError_valid_eq c a kind g i e hval
      (Or.inr ⟨by simp [beq_iff_eq, hk], hgvk⟩)
  · have hb : (kind == AnyKind) = false := by simp [beq_iff_eq, hk]
    simp [ErrorInjector.InjectError, hb, mustGVKForObject, hgvk]

theorem c8_witness :
    ErrorInjector.InjectError NewErrorInjector CreateAction AnyKind dep3Key
      (some "boom") = .ok ⟨[(⟨CreateAction, anyKindGVK, dep3Key⟩, some "boom")]⟩ :=
  (c8_sentinel_by_identity NewErrorInjector CreateAction dep3Key (some "boom")
    AnyKind depGVK (by decide)).1 rfl

/-- C9: the empty object key (namespace "", name "") is the very wildcard
identity AnyObject — the registration keys coincide — so a rule registered at
identity ("","") matches a call on any identity of the matching action and
type, and no exact-identity rule distinct from the wildcard can target a
resource legitimately named "" in namespace "". -/
theorem c9_empty_identity_is_wildcard (a : Action) (g : GroupVersionKind)
    (e : Option Err) (kobj : KObject) (hg : kobj.gvk = some g) :
    AnyObject = (⟨"", ""⟩ : ObjectKey)
    ∧ (⟨a, g, ⟨"", ""⟩⟩ : resourceActionKey) = ⟨a, g, AnyObject⟩
    ∧ ErrorInjector.getStubbedError ⟨[(⟨a, g, ⟨"", ""⟩⟩, e)]⟩ a kobj kobj.key =
        .ok e := by
  refine ⟨rfl, rfl, ?_⟩
  rw [getStubbedError_ok _ a kobj g kobj.key hg]
  by_cases hk : kobj.key = AnyObject
  · rw [hk]
    exact congrArg Outcome.ok
      (lookupFirst_exact_hit _ a g AnyObject e (tableGet_cons_self _ e []))
  · exact congrArg Outcome.ok
      (lookupFirst_identity_wildcard_hit _ a g kobj.key e
        ((tableGet_cons_ne (⟨a, g, AnyObject⟩ : resourceActionKey)
          (⟨a, g, kobj.key⟩ : resourceActionKey) e []
          (fun hEq => hk (congrArg resourceActionKey.objectKey hEq))).trans rfl)
        (tableGet_cons_self _ e []))

theorem c9_witness :
    ErrorInjector.getStubbedError ⟨[(⟨CreateAction, depGVK, ⟨"", ""⟩⟩, some "w")]⟩
      CreateAction dep3 dep3.key = .ok (some "w") :=
  (c9_empty_identity_is_wildcard CreateAction depGVK (some "w") dep3 rfl).2.2

end testingclient
